import Mathlib

/-!
Shallow embedding of the rungine engine-control subsystem (Go sources:
`internal/uci/parser.go`, `internal/uci/manager.go`, and the engine
session/type files `engine.go`/`types.go`).  Pure functions are translated
directly; the stateful session and coordinator code is translated as
explicit state passing over record types.  Machine integers (`int`,
`int64`, `time.Duration` in nanoseconds) are modelled as `Int`;
`strconv` parsing models Go's behaviour with the error ignored
(syntax error yields 0, range error clamps to the int64 bounds).
Wall-clock timestamps (`time.Now()`) are passed in as explicit `Int`
nanosecond parameters where the code needs them and are otherwise
omitted (no claim depends on them).
-/

namespace Rungine

/-- Engine session states, from `EngineState` in `types.go`. -/
inductive EngineState
  | none
  | starting
  | ready
  | thinking
  | pondering
  | stopped
  | error
deriving DecidableEq

/-- Engine evaluation score, from `Score` in `types.go` (`*int` fields
become `Option Int`). -/
structure Score where
  centipawns : Option Int := Option.none
  mate : Option Int := Option.none
  lowerBound : Bool := false
  upperBound : Bool := false
deriving DecidableEq

/-- One analysis update, from `AnalysisInfo` in `types.go`.  `Time` is a
Go `time.Duration`, modelled in nanoseconds; the wall-clock `Timestamp`
field is omitted from the pure model. -/
structure AnalysisInfo where
  engineID : String := ""
  depth : Int := 0
  selDepth : Int := 0
  score : Score := {}
  nodes : Int := 0
  nps : Int := 0
  timeNs : Int := 0
  pv : List String := []
  multiPV : Int := 0
  currMove : String := ""
  currMoveNumber : Int := 0
  hashFull : Int := 0
  tbHits : Int := 0
deriving DecidableEq

/-- The engine-chosen move, from `BestMove` in `types.go`. -/
structure BestMove where
  move : String := ""
  ponder : String := ""
deriving DecidableEq

/-- A configurable engine option, from `UCIOption` in `types.go`
(the `Type` field is a string-typed `UCIOptionType`). -/
structure UCIOption where
  name : String := ""
  type : String := ""
  defaultVal : String := ""
  min : Option Int := Option.none
  max : Option Int := Option.none
  vars : List String := []
  value : String := ""
deriving DecidableEq

/-- Parameters of the `go` command, from `GoParams` in `types.go`
(durations in nanoseconds). -/
structure GoParams where
  infinite : Bool := false
  depth : Int := 0
  nodes : Int := 0
  moveTimeNs : Int := 0
  whiteTimeNs : Int := 0
  blackTimeNs : Int := 0
  whiteIncNs : Int := 0
  blackIncNs : Int := 0
  movesToGo : Int := 0
  searchMoves : List String := []
  ponder : Bool := false
deriving DecidableEq

/-- Tagged result of parsing one line, from `ParsedLine` in `parser.go`
(the Go struct is `{Type string, Data any}`; each `Type` string becomes a
constructor, `idOnly` standing for the bare `"id"` tag). -/
inductive ParsedLine
  | empty
  | unknown (raw : String)
  | idOnly
  | idName (s : String)
  | idAuthor (s : String)
  | uciok
  | readyok
  | bestmove (bm : BestMove)
  | info (i : AnalysisInfo)
  | option (o : UCIOption)
deriving DecidableEq

/-! ### Go standard-library helpers used by the parser -/

def maxInt64 : Int := 9223372036854775807

def minInt64 : Int := -9223372036854775808

/-- Decimal value of a digit list. -/
def digitsToNat (cs : List Char) : Nat :=
  cs.foldl (fun a c => a * 10 + (c.toNat - 48)) 0

/-- A nonempty all-digit list parses to its value. -/
def decDigits? (cs : List Char) : Option Nat :=
  if cs ≠ [] ∧ cs.all Char.isDigit then Option.some (digitsToNat cs) else Option.none

/-- Base-10 integer literal grammar of Go `strconv.ParseInt`
(optional sign, then one or more digits). -/
def goIntLit? (s : String) : Option Int :=
  match s.data with
  | [] => Option.none
  | c :: rest =>
    if c = '+' then (decDigits? rest).map (fun n => (n : Int))
    else if c = '-' then (decDigits? rest).map (fun n => -(n : Int))
    else (decDigits? (c :: rest)).map (fun n => (n : Int))

/-- Go `strconv.ParseInt(s, 10, 64)` with the error ignored, as the parser
does: a syntax error yields 0 and a range error yields the clamped value. -/
def goParseInt (s : String) : Int :=
  match goIntLit? s with
  | Option.none => 0
  | Option.some n => if n > maxInt64 then maxInt64 else if n < minInt64 then minInt64 else n

/-- Go `strconv.Atoi` (64-bit int) with the error ignored. -/
def goAtoi (s : String) : Int := goParseInt s

/-- Whitespace as recognized by Go `strings.Fields` / `strings.TrimSpace`
(ASCII portion; the protocol lines are ASCII). -/
def goIsSpace (c : Char) : Bool :=
  c == ' ' || c == '\t' || c == '\n' || c == '\r' || c == Char.ofNat 11 || c == Char.ofNat 12

/-- Accumulator loop behind `goFields`. -/
def fieldsAux : List Char → List Char → List String
  | [], acc => if acc.isEmpty then [] else [String.mk acc.reverse]
  | c :: cs, acc =>
    if goIsSpace c then
      if acc.isEmpty then fieldsAux cs [] else String.mk acc.reverse :: fieldsAux cs []
    else fieldsAux cs (c :: acc)

/-- Go `strings.Fields`: split around runs of whitespace. -/
def goFields (s : String) : List String := fieldsAux s.data []

/-- Go `strings.TrimSpace`. -/
def goTrimSpace (s : String) : String :=
  String.mk (((s.data.dropWhile goIsSpace).reverse.dropWhile goIsSpace).reverse)

/-! ### Inbound parsing (`parser.go`) -/

/-- The `score` keyword sub-scanner `parseScore` in `parser.go`: consumes
`cp n`, `mate n`, `lowerbound`, `upperbound`; the first unknown token
returns control (it is handed back unconsumed, matching the Go index
arithmetic `return i - 1` followed by the outer `i++`). -/
def parseScoreTokens (sc : Score) : List String → Score × List String
  | [] => (sc, [])
  | "cp" :: rest =>
    match rest with
    | v :: rest2 => parseScoreTokens { sc with centipawns := Option.some (goAtoi v) } rest2
    | [] => (sc, [])
  | "mate" :: rest =>
    match rest with
    | v :: rest2 => parseScoreTokens { sc with mate := Option.some (goAtoi v) } rest2
    | [] => (sc, [])
  | "lowerbound" :: rest => parseScoreTokens { sc with lowerBound := true } rest
  | "upperbound" :: rest => parseScoreTokens { sc with upperBound := true } rest
  | t :: rest => (sc, t :: rest)

/-- Dropping a prefix cannot lengthen a list. -/
theorem dropWhile_length_le {α : Type} (p : α → Bool) (l : List α) :
    (l.dropWhile p).length ≤ l.length := by
  induction l with
  | nil => simp [List.dropWhile]
  | cons a l ih =>
    simp only [List.dropWhile]
    cases p a <;> simp <;> omega

/-- The sub-scanner never lengthens the remainder of the line. -/
theorem parseScoreTokens_length_le (sc : Score) (l : List String) :
    (parseScoreTokens sc l).2.length ≤ l.length := by
  induction sc, l using parseScoreTokens.induct <;>
    (simp_all [parseScoreTokens]; try omega)

/-- Whatever the sub-scanner hands back is a suffix of what it was given
(stated as membership preservation, which is all later proofs need). -/
theorem parseScoreTokens_mem (sc : Score) (l : List String) :
    ∀ x, x ∈ (parseScoreTokens sc l).2 → x ∈ l := by
  induction sc, l using parseScoreTokens.induct <;>
    intro x hx <;> simp_all [parseScoreTokens]

/-- If `cp` never occurs in the tokens, the sub-scanner leaves the
centipawn field alone. -/
theorem parseScoreTokens_cp_of_not_mem (sc : Score) (l : List String)
    (h : "cp" ∉ l) : (parseScoreTokens sc l).1.centipawns = sc.centipawns := by
  induction sc, l using parseScoreTokens.induct <;> simp_all [parseScoreTokens]

/-- If `mate` never occurs in the tokens, the sub-scanner leaves the
mate field alone. -/
theorem parseScoreTokens_mate_of_not_mem (sc : Score) (l : List String)
    (h : "mate" ∉ l) : (parseScoreTokens sc l).1.mate = sc.mate := by
  induction sc, l using parseScoreTokens.induct <;> simp_all [parseScoreTokens]

/-- The keyword/value scanner `parseInfoLine` in `parser.go`, over the
already-split tokens after `info`.  Each recognized keyword consumes its
value when one follows; `pv` consumes the remainder of the line;
`string` terminates the scan; unknown keywords are skipped. -/
def parseInfoTokens (info : AnalysisInfo) : List String → AnalysisInfo
  | [] => info
  | "depth" :: rest =>
    match rest with
    | v :: rest2 => parseInfoTokens { info with depth := goAtoi v } rest2
    | [] => info
  | "seldepth" :: rest =>
    match rest with
    | v :: rest2 => parseInfoTokens { info with selDepth := goAtoi v } rest2
    | [] => info
  | "multipv" :: rest =>
    match rest with
    | v :: rest2 => parseInfoTokens { info with multiPV := goAtoi v } rest2
    | [] => info
  | "score" :: rest =>
    let r := parseScoreTokens info.score rest
    parseInfoTokens { info with score := r.1 } r.2
  | "nodes" :: rest =>
    match rest with
    | v :: rest2 => parseInfoTokens { info with nodes := goParseInt v } rest2
    | [] => info
  | "nps" :: rest =>
    match rest with
    | v :: rest2 => parseInfoTokens { info with nps := goParseInt v } rest2
    | [] => info
  | "time" :: rest =>
    match rest with
    | v :: rest2 => parseInfoTokens { info with timeNs := goParseInt v * 1000000 } rest2
    | [] => info
  | "pv" :: rest => { info with pv := rest }
  | "currmove" :: rest =>
    match rest with
    | v :: rest2 => parseInfoTokens { info with currMove := v } rest2
    | [] => info
  | "currmovenumber" :: rest =>
    match rest with
    | v :: rest2 => parseInfoTokens { info with currMoveNumber := goAtoi v } rest2
    | [] => info
  | "hashfull" :: rest =>
    match rest with
    | v :: rest2 => parseInfoTokens { info with hashFull := goAtoi v } rest2
    | [] => info
  | "tbhits" :: rest =>
    match rest with
    | v :: rest2 => parseInfoTokens { info with tbHits := goParseInt v } rest2
    | [] => info
  | "string" :: _ => info
  | _ :: rest => parseInfoTokens info rest
termination_by l => l.length
decreasing_by
  all_goals simp_arith [*]
  all_goals exact parseScoreTokens_length_le _ _

/-- `option` line keyword scanner `parseOptionLine` in `parser.go`
(before the final `opt.Value = opt.Default` assignment). -/
def isOptionKeyword (s : String) : Bool :=
  s == "name" || s == "type" || s == "default" || s == "min" || s == "max" || s == "var"

def parseOptionTokens (opt : UCIOption) : List String → UCIOption
  | [] => opt
  | "name" :: rest =>
    parseOptionTokens
      { opt with name := String.intercalate " " (rest.takeWhile (fun t => t ≠ "type")) }
      (rest.dropWhile (fun t => t ≠ "type"))
  | "type" :: rest =>
    match rest with
    | v :: rest2 => parseOptionTokens { opt with type := v } rest2
    | [] => opt
  | "default" :: rest =>
    if opt.type = "string" then
      let defToks := rest.takeWhile (fun t => !isOptionKeyword t)
      parseOptionTokens
        (if defToks.isEmpty then opt
         else { opt with defaultVal := String.intercalate " " defToks })
        (rest.dropWhile (fun t => !isOptionKeyword t))
    else
      match rest with
      | v :: rest2 => parseOptionTokens { opt with defaultVal := v } rest2
      | [] => opt
  | "min" :: rest =>
    match rest with
    | v :: rest2 => parseOptionTokens { opt with min := Option.some (goAtoi v) } rest2
    | [] => opt
  | "max" :: rest =>
    match rest with
    | v :: rest2 => parseOptionTokens { opt with max := Option.some (goAtoi v) } rest2
    | [] => opt
  | "var" :: rest =>
    match rest with
    | v :: rest2 => parseOptionTokens { opt with vars := opt.vars ++ [v] } rest2
    | [] => opt
  | _ :: rest => parseOptionTokens opt rest
termination_by l => l.length
decreasing_by
  all_goals simp_arith [*]
  all_goals exact dropWhile_length_le _ _

/-- `parseIDLine` in `parser.go`. -/
def parseIDLine (parts : List String) : ParsedLine :=
  match parts with
  | "name" :: r :: rs => ParsedLine.idName (String.intercalate " " (r :: rs))
  | "author" :: r :: rs => ParsedLine.idAuthor (String.intercalate " " (r :: rs))
  | _ => ParsedLine.idOnly

/-- The ponder scan inside `parseBestMoveLine` (loop from index 1 looking
for a `ponder` token that has a successor). -/
def scanPonder : List String → String
  | a :: b :: rest => if a = "ponder" then b else scanPonder (b :: rest)
  | _ => ""

/-- `parseBestMoveLine` in `parser.go`. -/
def parseBestMoveLine (parts : List String) : ParsedLine :=
  match parts with
  | [] => ParsedLine.bestmove {}
  | m :: rest => ParsedLine.bestmove { move := m, ponder := scanPonder rest }

/-- `ParseLine` in `parser.go`: trim, split on whitespace, dispatch on the
first token.  Total — there is no error result; this is the permissive
parser. -/
def ParseLine (line : String) : ParsedLine :=
  let trimmed := goTrimSpace line
  if trimmed = "" then ParsedLine.empty
  else
    match goFields trimmed with
    | [] => ParsedLine.empty
    | cmd :: rest =>
      if cmd = "id" then parseIDLine rest
      else if cmd = "uciok" then ParsedLine.uciok
      else if cmd = "readyok" then ParsedLine.readyok
      else if cmd = "bestmove" then parseBestMoveLine rest
      else if cmd = "info" then ParsedLine.info (parseInfoTokens {} rest)
      else if cmd = "option" then
        ParsedLine.option
          (let opt := parseOptionTokens {} rest
           { opt with value := opt.defaultVal })
      else ParsedLine.unknown trimmed

/-! ### Outbound serialization (`parser.go`) -/

/-- Go `time.Duration.Milliseconds()`: integer division truncating toward
zero. -/
def goMilliseconds (ns : Int) : Int := Int.tdiv ns 1000000

/-- `BuildGoCommand` in `parser.go`. -/
def BuildGoCommand (p : GoParams) : String :=
  if p.infinite then String.intercalate " " ["go", "infinite"]
  else
    String.intercalate " "
      (["go"]
        ++ (if p.ponder then ["ponder"] else [])
        ++ (if p.depth > 0 then ["depth", toString p.depth] else [])
        ++ (if p.nodes > 0 then ["nodes", toString p.nodes] else [])
        ++ (if p.moveTimeNs > 0 then ["movetime", toString (goMilliseconds p.moveTimeNs)] else [])
        ++ (if p.whiteTimeNs > 0 then ["wtime", toString (goMilliseconds p.whiteTimeNs)] else [])
        ++ (if p.blackTimeNs > 0 then ["btime", toString (goMilliseconds p.blackTimeNs)] else [])
        ++ (if p.whiteIncNs > 0 then ["winc", toString (goMilliseconds p.whiteIncNs)] else [])
        ++ (if p.blackIncNs > 0 then ["binc", toString (goMilliseconds p.blackIncNs)] else [])
        ++ (if p.movesToGo > 0 then ["movestogo", toString p.movesToGo] else [])
        ++ (if p.searchMoves.length > 0 then "searchmoves" :: p.searchMoves else []))

/-- `BuildPositionCommand` in `parser.go`. -/
def BuildPositionCommand (fen : String) (moves : List String) : String :=
  String.intercalate " "
    (["position"]
      ++ (if fen = "" ∨ fen = "startpos" then ["startpos"] else ["fen", fen])
      ++ (if moves.length > 0 then "moves" :: moves else []))

/-- `BuildSetOptionCommand` in `parser.go`. -/
def BuildSetOptionCommand (name value : String) : String :=
  if value = "" then "setoption name " ++ name
  else "setoption name " ++ name ++ " value " ++ value

/-! ### Engine session model (`engine.go`)

The `Engine` struct's observable state is modelled as a record: the state
field and its history of `setState` calls (states are written under the
mutex, so readers see them strictly ordered), the option table as an
association list with map semantics (first binding wins), the outbound
wire as the list of command lines written under the write mutex, and the
bounded analysis channel as a list (oldest first).  Process, pipe and
goroutine handles are process-level and carry no state the claims touch;
spawn is assumed to succeed. -/

/-- Errors surfaced by session operations (`ErrEngineNotRunning`,
`ErrEngineTimeout`, and `fmt.Errorf` wrappers in `engine.go`). -/
inductive UciError
  | alreadyRunning
  | timeoutErr
  | notRunning
  | notReady
deriving DecidableEq

structure SessionM where
  id : String := ""
  name : String := ""
  author : String := ""
  state : EngineState := EngineState.none
  trace : List EngineState := [EngineState.none]
  options : List (String × UCIOption) := []
  wire : List String := []
  infoCh : List AnalysisInfo := []
deriving DecidableEq

/-- `NewEngine` in `engine.go`: fresh session in state `None` with an
empty option table. -/
def NewEngine (id : String) : SessionM := { id := id }

/-- `setState` in `engine.go`; the trace records the ordered history. -/
def setStateM (e : SessionM) (s : EngineState) : SessionM :=
  { e with state := s, trace := e.trace ++ [s] }

/-- `sendCommand` in `engine.go`: one line appended to the outbound wire
under the write mutex. -/
def sendCommandM (e : SessionM) (cmd : String) : SessionM :=
  { e with wire := e.wire ++ [cmd] }

/-- Capacity of the analysis channel: `make(chan AnalysisInfo, 100)` in
`Start`. -/
def infoChCap : Nat := 100

/-- The channel send in `handleLine`: try a non-blocking send; when the
channel is full receive once (dropping the oldest buffered record) and
then send.  With the single reader task as producer the second send
succeeds immediately, so one push performs at most one drop. -/
def pushDropOldest (q : List AnalysisInfo) (x : AnalysisInfo) : List AnalysisInfo :=
  if q.length < infoChCap then q ++ [x] else q.drop 1 ++ [x]

/-- Number of drop operations the push in `handleLine` performs. -/
def pushDropCount (q : List AnalysisInfo) : Nat :=
  if q.length < infoChCap then 0 else 1

/-- Map insertion (`m[k] = v` on a Go map), on the association list. -/
def mapInsert (m : List (String × UCIOption)) (k : String) (v : UCIOption) :
    List (String × UCIOption) :=
  (k, v) :: m.filter (fun kv => !(kv.1 == k))

/-- `handleLine` in `engine.go`: an `info` record is stamped with the
session id and pushed onto the analysis channel with drop-oldest
back-pressure; a `bestmove` sets the state to `Ready`; everything else is
ignored. -/
def handleLineM (e : SessionM) (line : ParsedLine) : SessionM :=
  match line with
  | ParsedLine.info i =>
    { e with infoCh := pushDropOldest e.infoCh { i with engineID := e.id } }
  | ParsedLine.bestmove _ => setStateM e EngineState.ready
  | _ => e

/-- `readLoop` in `engine.go`, restricted to its per-line effect on the
session: each raw line is parsed by the codec and handed to `handleLine`
(the copy delivered to the rendezvous channel `outputCh` is consumed only
by `initUCI`/`waitFor` and is modelled there). -/
def readLoopM (e : SessionM) (lines : List String) : SessionM :=
  lines.foldl (fun acc line => handleLineM acc (ParseLine line)) e

/-- Handshake deadline in `initUCI`: `timeout := 5 * time.Second`. -/
def handshakeTimeoutNs : Int := 5000000000

/-- The receive loop of `initUCI` in `engine.go` over the parsed lines the
engine emits: `id name`/`id author`/`option` progressively populate the
session, `uciok` completes the handshake (state `Ready`, result `true`);
exhausting the lines without `uciok` models the 5-second timer expiring
(result `false`). -/
def initUCILoop (e : SessionM) : List ParsedLine → SessionM × Bool
  | [] => (e, false)
  | l :: rest =>
    match l with
    | ParsedLine.idName s => initUCILoop { e with name := s } rest
    | ParsedLine.idAuthor s => initUCILoop { e with author := s } rest
    | ParsedLine.option o => initUCILoop { e with options := mapInsert e.options o.name o } rest
    | ParsedLine.uciok => (setStateM e EngineState.ready, true)
    | _ => initUCILoop e rest

/-- `initUCI` in `engine.go`: send `uci`, then wait for `uciok`. -/
def initUCIM (e : SessionM) (handshake : List ParsedLine) : SessionM × Bool :=
  initUCILoop (sendCommandM e "uci") handshake

/-- `Stop` in `engine.go`: no-op from `None`/`Stopped`; otherwise send
`quit`, wait for exit (or force-kill after the 500 ms grace), and set the
state to `Stopped`. -/
def stopM (e : SessionM) : SessionM :=
  if e.state = EngineState.none ∨ e.state = EngineState.stopped then e
  else setStateM (sendCommandM e "quit") EngineState.stopped

/-- `Start` in `engine.go`, parameterized by the handshake lines the
launched engine emits: refuse unless the state is `None`, `Stopped` or
`Error`; otherwise enter `Starting`, launch (spawn assumed to succeed) and
run the handshake; on handshake failure call `Stop` and return the
timeout error. -/
def startM (e : SessionM) (handshake : List ParsedLine) : SessionM × Option UciError :=
  if e.state ≠ EngineState.none ∧ e.state ≠ EngineState.stopped
      ∧ e.state ≠ EngineState.error then
    (e, Option.some UciError.alreadyRunning)
  else
    match initUCIM (setStateM e EngineState.starting) handshake with
    | (e2, true) => (e2, Option.none)
    | (e2, false) => (stopM e2, Option.some UciError.timeoutErr)

/-- `SetOption` in `engine.go`: permitted only from `Ready` or `Thinking`;
sends the serialized command, then updates `Value` of the existing
descriptor in place (a missing descriptor is left missing). -/
def setOptionM (e : SessionM) (name value : String) : SessionM × Option UciError :=
  if e.state ≠ EngineState.ready ∧ e.state ≠ EngineState.thinking then
    (e, Option.some UciError.notRunning)
  else
    match List.lookup name e.options with
    | Option.some opt =>
      ({ sendCommandM e (BuildSetOptionCommand name value) with
          options := mapInsert e.options name { opt with value := value } }, Option.none)
    | Option.none => (sendCommandM e (BuildSetOptionCommand name value), Option.none)

/-- `SetPosition` in `engine.go`: permitted only from `Ready`. -/
def setPositionM (e : SessionM) (fen : String) (moves : List String) :
    SessionM × Option UciError :=
  if e.state ≠ EngineState.ready then (e, Option.some UciError.notRunning)
  else (sendCommandM e (BuildPositionCommand fen moves), Option.none)

/-- `Go` in `engine.go`: permitted only from `Ready`; sets the state to
`Thinking`, then sends the built `go` command. -/
def goM (e : SessionM) (p : GoParams) : SessionM × Option UciError :=
  if e.state ≠ EngineState.ready then (e, Option.some UciError.notReady)
  else (sendCommandM (setStateM e EngineState.thinking) (BuildGoCommand p), Option.none)

/-- `StopSearch` in `engine.go`: no-op unless searching. -/
def stopSearchM (e : SessionM) : SessionM × Option UciError :=
  if e.state ≠ EngineState.thinking ∧ e.state ≠ EngineState.pondering then (e, Option.none)
  else (sendCommandM e "stop", Option.none)

/-! ### Coordinator rate limiter (`manager.go`) -/

/-- The throttling state of `EngineManager`: the configured minimum
interval and the per-session wall-clock time of the last emission,
as an association list (first binding wins). -/
structure ThrottleState where
  throttleIntervalNs : Int := 50000000
  lastEmit : List (String × Int) := []
deriving DecidableEq

/-- `SetThrottleRate` in `manager.go`: values `hz ≤ 0` map to 20 Hz, then
the interval is `time.Second / hz` (Go integer division truncates toward
zero). -/
def throttleIntervalOf (hz : Int) : Int :=
  Int.tdiv 1000000000 (if hz ≤ 0 then 20 else hz)

def setThrottleRateM (m : ThrottleState) (hz : Int) : ThrottleState :=
  { m with throttleIntervalNs := throttleIntervalOf hz }

/-- `emitThrottled` in `manager.go`, with the analysis sink installed (the
`cb != nil` read): returns whether the record is forwarded to the sink,
and the updated per-session emission table. -/
def emitThrottled (m : ThrottleState) (nowNs : Int) (info : AnalysisInfo) :
    Bool × ThrottleState :=
  let shouldEmit : Bool :=
    match List.lookup info.engineID m.lastEmit with
    | Option.none => true
    | Option.some t =>
      if nowNs - t ≥ m.throttleIntervalNs ∨ info.depth ≥ 20 ∨ info.pv = [] then true
      else false
  if shouldEmit then
    (true, { m with lastEmit := (info.engineID, nowNs) :: m.lastEmit })
  else (false, m)

/-! ### Helper lemmas -/

theorem pushDropOldest_length_le (q : List AnalysisInfo) (x : AnalysisInfo)
    (h : q.length ≤ infoChCap) : (pushDropOldest q x).length ≤ infoChCap := by
  unfold pushDropOldest
  split <;> simp_all [infoChCap] <;> omega

theorem handleLineM_infoCh_length_le (e : SessionM) (l : ParsedLine)
    (h : e.infoCh.length ≤ infoChCap) :
    (handleLineM e l).infoCh.length ≤ infoChCap := by
  cases l <;> simp_all [handleLineM, setStateM]
  exact pushDropOldest_length_le _ _ h

theorem readLoopM_infoCh_length_le (lines : List String) (e : SessionM)
    (h : e.infoCh.length ≤ infoChCap) :
    (readLoopM e lines).infoCh.length ≤ infoChCap := by
  induction lines generalizing e with
  | nil => simpa [readLoopM] using h
  | cons l rest ih =>
    simpa [readLoopM] using ih _ (handleLineM_infoCh_length_le e (ParseLine l) h)

/-! ### The claims -/

/-- C1.  For every sequence of inbound engine lines, the per-session
bounded analysis channel never exceeds its fixed capacity (100); when the
channel is full the oldest buffered record is dropped to make room for
the new one; and one push performs at most one drop operation, the only
operation the producing reader task can wait on. -/
theorem analysis_channel_bounded (lines : List String) (e : SessionM)
    (q : List AnalysisInfo) (x : AnalysisInfo)
    (he : e.infoCh.length ≤ infoChCap) (hq : q.length = infoChCap) :
    (readLoopM e lines).infoCh.length ≤ infoChCap
    ∧ pushDropOldest q x = q.drop 1 ++ [x]
    ∧ pushDropCount q ≤ 1 := by
  refine ⟨readLoopM_infoCh_length_le lines e he, ?_, ?_⟩
  · simp [pushDropOldest, hq]
  · unfold pushDropCount
    split <;> omega

/-- Witness for C1 at a fresh session, one inbound line, and a full
buffer. -/
theorem analysis_channel_bounded_witness :
    ((NewEngine "w").infoCh.length ≤ infoChCap
      ∧ (List.replicate 100 ({} : AnalysisInfo)).length = infoChCap)
    ∧ ((readLoopM (NewEngine "w") ["info depth 1"]).infoCh.length ≤ infoChCap
      ∧ pushDropOldest (List.replicate 100 ({} : AnalysisInfo)) {}
          = (List.replicate 100 ({} : AnalysisInfo)).drop 1 ++ [({} : AnalysisInfo)]
      ∧ pushDropCount (List.replicate 100 ({} : AnalysisInfo)) ≤ 1) :=
  ⟨⟨by decide, by decide⟩,
    analysis_channel_bounded ["info depth 1"] (NewEngine "w")
      (List.replicate 100 {}) {} (by decide) (by decide)⟩

/-- C4.  A record reaching the coordinator's rate limiter is forwarded to
the installed sink iff (a) no prior emission for the session, or (b) the
time since the last emission is at least the configured interval, or
(c) the record's depth is at least 20, or (d) its principal variation is
empty; and a rate of `hz ≤ 0` maps to the 20 Hz default (a 50 ms
interval). -/
theorem emit_throttled_iff (m : ThrottleState) (nowNs : Int) (info : AnalysisInfo)
    (hz : Int) (hhz : hz ≤ 0) :
    ((emitThrottled m nowNs info).1 = true ↔
      (List.lookup info.engineID m.lastEmit = Option.none
        ∨ (∃ t, List.lookup info.engineID m.lastEmit = Option.some t
            ∧ nowNs - t ≥ m.throttleIntervalNs)
        ∨ info.depth ≥ 20 ∨ info.pv = []))
    ∧ setThrottleRateM m hz = setThrottleRateM m 20
    ∧ throttleIntervalOf 20 = 50000000 := by
  refine ⟨?_, ?_, by decide⟩
  · unfold emitThrottled
    cases hlk : List.lookup info.engineID m.lastEmit with
    | none => simp [hlk]
    | some t =>
      simp only [hlk]
      split <;> rename_i hcond <;> simp_all
  · simp [setThrottleRateM, throttleIntervalOf, if_pos hhz]

/-- Witness for C4 at an empty emission table and rate `-1`. -/
theorem emit_throttled_iff_witness :
    ((-1 : Int) ≤ 0)
    ∧ (((emitThrottled {} 0 {}).1 = true ↔
        (List.lookup ({} : AnalysisInfo).engineID ({} : ThrottleState).lastEmit = Option.none
          ∨ (∃ t, List.lookup ({} : AnalysisInfo).engineID ({} : ThrottleState).lastEmit
                = Option.some t
              ∧ (0 : Int) - t ≥ ({} : ThrottleState).throttleIntervalNs)
          ∨ ({} : AnalysisInfo).depth ≥ 20 ∨ ({} : AnalysisInfo).pv = []))
      ∧ setThrottleRateM {} (-1) = setThrottleRateM {} 20
      ∧ throttleIntervalOf 20 = 50000000) :=
  ⟨by decide, emit_throttled_iff {} 0 {} (-1) (by decide)⟩

/-- Modelled from the spec wording of the `go` serialization contract
(§4.1): the clauses whose values are set, in the fixed order `infinite`,
`ponder`, `depth`, `nodes`, `movetime`, `wtime`, `btime`, `winc`, `binc`,
`movestogo`, `searchmoves`; when `infinite` is set all subsequent clauses
are omitted. -/
def specGoClauses (p : GoParams) : List String :=
  if p.infinite then ["infinite"]
  else
    List.flatten
      [(if p.ponder then ["ponder"] else []),
       (if p.depth > 0 then ["depth", toString p.depth] else []),
       (if p.nodes > 0 then ["nodes", toString p.nodes] else []),
       (if p.moveTimeNs > 0 then ["movetime", toString (goMilliseconds p.moveTimeNs)] else []),
       (if p.whiteTimeNs > 0 then ["wtime", toString (goMilliseconds p.whiteTimeNs)] else []),
       (if p.blackTimeNs > 0 then ["btime", toString (goMilliseconds p.blackTimeNs)] else []),
       (if p.whiteIncNs > 0 then ["winc", toString (goMilliseconds p.whiteIncNs)] else []),
       (if p.blackIncNs > 0 then ["binc", toString (goMilliseconds p.blackIncNs)] else []),
       (if p.movesToGo > 0 then ["movestogo", toString p.movesToGo] else []),
       (if p.searchMoves.length > 0 then "searchmoves" :: p.searchMoves else [])]

/-- C8.  For every `GoParams` record, the serialized `go` command is the
word `go` followed by exactly the set clauses in the specified order; in
particular, when `infinite` is set no clause other than `infinite`
appears. -/
theorem buildGo_matches_spec (p : GoParams) :
    BuildGoCommand p = String.intercalate " " ("go" :: specGoClauses p) := by
  unfold BuildGoCommand specGoClauses
  by_cases hi : p.infinite <;> simp [hi]

/-- C5.  The parser is total and error-free (its result type has no error
variant); a malformed numeric field falls back to zero without aborting
the scan of the rest of the line, whose recognized fields are still
filled (shown for an arbitrary non-numeric depth value `d` followed by a
well-formed `seldepth` and `pv`, and for a full ill-formed line through
`ParseLine`). -/
theorem parse_permissive (d : String) (pvs : List String)
    (hd : goIntLit? d = Option.none) :
    parseInfoTokens {} (["depth", d, "seldepth", "7", "pv"] ++ pvs)
      = { selDepth := 7, pv := pvs }
    ∧ ParseLine "info depth 12abc nodes 99 pv e2e4"
      = ParsedLine.info { nodes := 99, pv := ["e2e4"] } := by
  constructor
  · have hda : goAtoi d = 0 := by simp [goAtoi, goParseInt, hd]
    have h7 : goAtoi "7" = 7 := by decide
    simp [parseInfoTokens, hda, h7]
  · have h1 : goTrimSpace "info depth 12abc nodes 99 pv e2e4"
        = "info depth 12abc nodes 99 pv e2e4" := by decide
    have h2 : goFields "info depth 12abc nodes 99 pv e2e4"
        = ["info", "depth", "12abc", "nodes", "99", "pv", "e2e4"] := by decide
    simp [ParseLine, h1, h2, parseInfoTokens, parseScoreTokens]
    decide

/-- Witness for C5 at the non-numeric depth value `xx`. -/
theorem parse_permissive_witness :
    goIntLit? "xx" = Option.none
    ∧ (parseInfoTokens {} (["depth", "xx", "seldepth", "7", "pv"] ++ ["e2e4"])
        = { selDepth := 7, pv := ["e2e4"] }
      ∧ ParseLine "info depth 12abc nodes 99 pv e2e4"
        = ParsedLine.info { nodes := 99, pv := ["e2e4"] }) :=
  ⟨by decide, parse_permissive "xx" ["e2e4"] (by decide)⟩

/-- The info scanner can only set the centipawn field while consuming a
`cp` keyword. -/
theorem parseInfoTokens_cp_not_mem (info : AnalysisInfo) (parts : List String)
    (h : "cp" ∉ parts) :
    (parseInfoTokens info parts).score.centipawns = info.score.centipawns := by
  induction info, parts using parseInfoTokens.induct
  all_goals simp_all [parseInfoTokens]
  rename_i info2 rest2 r2 ih2
  have hcp2 : "cp" ∉ (parseScoreTokens info2.score rest2).2 :=
    fun hx => h (parseScoreTokens_mem _ _ _ hx)
  exact (ih2 hcp2).trans (parseScoreTokens_cp_of_not_mem _ _ h)

/-- The info scanner can only set the mate field while consuming a
`mate` keyword. -/
theorem parseInfoTokens_mate_not_mem (info : AnalysisInfo) (parts : List String)
    (h : "mate" ∉ parts) :
    (parseInfoTokens info parts).score.mate = info.score.mate := by
  induction info, parts using parseInfoTokens.induct
  all_goals simp_all [parseInfoTokens]
  rename_i info2 rest2 r2 ih2
  have hmate2 : "mate" ∉ (parseScoreTokens info2.score rest2).2 :=
    fun hx => h (parseScoreTokens_mem _ _ _ hx)
  exact (ih2 hmate2).trans (parseScoreTokens_mate_of_not_mem _ _ h)

/-- C9 as amended: the parser keeps centipawns and mate-in mutually
exclusive for every info line that does not itself carry both the `cp`
and the `mate` keyword; a line carrying both sets both fields (see the
counterexample). -/
theorem score_exclusive (parts : List String)
    (h : ¬("cp" ∈ parts ∧ "mate" ∈ parts)) :
    (parseInfoTokens {} parts).score.centipawns = Option.none
    ∨ (parseInfoTokens {} parts).score.mate = Option.none := by
  rcases not_and_or.mp h with hc | hm
  · exact Or.inl (parseInfoTokens_cp_not_mem {} parts hc)
  · exact Or.inr (parseInfoTokens_mate_not_mem {} parts hm)

/-- Witness for C9 at a plain centipawn score line. -/
theorem score_exclusive_witness :
    (¬("cp" ∈ ["score", "cp", "7"] ∧ "mate" ∈ ["score", "cp", "7"]))
    ∧ ((parseInfoTokens {} ["score", "cp", "7"]).score.centipawns = Option.none
      ∨ (parseInfoTokens {} ["score", "cp", "7"]).score.mate = Option.none) :=
  ⟨by decide, score_exclusive ["score", "cp", "7"] (by decide)⟩

/-- Counterexample to C9 as stated: the adversarial line
`info score cp 5 mate 3` parses to a score carrying both centipawns and
mate-in. -/
theorem score_both_cx :
    ParseLine "info score cp 5 mate 3"
      = ParsedLine.info { score := { centipawns := Option.some 5, mate := Option.some 3 } }
    ∧ (parseInfoTokens {} ["score", "cp", "5", "mate", "3"]).score.centipawns
        = Option.some 5
    ∧ (parseInfoTokens {} ["score", "cp", "5", "mate", "3"]).score.mate
        = Option.some 3 := by
  have h1 : goTrimSpace "info score cp 5 mate 3" = "info score cp 5 mate 3" := by decide
  have h2 : goFields "info score cp 5 mate 3" = ["info", "score", "cp", "5", "mate", "3"] := by
    decide
  refine ⟨?_, ?_, ?_⟩ <;> simp [ParseLine, h1, h2, parseInfoTokens, parseScoreTokens] <;> decide

/-! ### Session lemmas -/

theorem lookup_mapInsert_self (m : List (String × UCIOption)) (k : String) (v : UCIOption) :
    List.lookup k (mapInsert m k v) = Option.some v := by
  simp [mapInsert, List.lookup]

theorem lookup_filter_ne (m : List (String × UCIOption)) (k k2 : String) (h : k2 ≠ k) :
    List.lookup k2 (m.filter (fun kv => !(kv.1 == k))) = List.lookup k2 m := by
  induction m with
  | nil => simp
  | cons a t ih =>
    rcases a with ⟨ak, av⟩
    by_cases hak : ak = k
    · subst hak
      have hne : (k2 == ak) = false := beq_eq_false_iff_ne.mpr h
      simp [List.filter_cons, List.lookup, hne, ih]
    · have hakb : (ak == k) = false := beq_eq_false_iff_ne.mpr hak
      by_cases hk2 : k2 = ak
      · simp [List.filter_cons, hakb, List.lookup, hk2]
      · have hne : (k2 == ak) = false := beq_eq_false_iff_ne.mpr hk2
        simp [List.filter_cons, hakb, List.lookup, hne, ih]

theorem lookup_mapInsert_ne (m : List (String × UCIOption)) (k n0 : String) (x : UCIOption)
    (h : k ≠ n0) : List.lookup k (mapInsert m n0 x) = List.lookup k m := by
  have hne : (k == n0) = false := beq_eq_false_iff_ne.mpr h
  simp [mapInsert, List.lookup, hne, lookup_filter_ne m n0 k h]

theorem initUCILoop_no_uciok (e : SessionM) (lines : List ParsedLine)
    (h : ParsedLine.uciok ∉ lines) :
    (initUCILoop e lines).2 = false
    ∧ (initUCILoop e lines).1.state = e.state
    ∧ (initUCILoop e lines).1.trace = e.trace
    ∧ (initUCILoop e lines).1.wire = e.wire := by
  induction lines generalizing e with
  | nil => simp [initUCILoop]
  | cons l rest ih =>
    have hr : ParsedLine.uciok ∉ rest := by simp_all
    cases l <;> simp_all [initUCILoop]

/-- C2 as amended: if the handshake does not complete within the deadline
(default 5 seconds, `handshakeTimeoutNs`), `start` returns the timeout
error and the fresh session's state goes through exactly
None → Starting → Stopped (the handshake failure path calls `Stop`, which
marks the session Stopped rather than Error). -/
theorem handshake_timeout_states (id : String) (lines : List ParsedLine)
    (h : ParsedLine.uciok ∉ lines) :
    (startM (NewEngine id) lines).2 = Option.some UciError.timeoutErr
    ∧ (startM (NewEngine id) lines).1.state = EngineState.stopped
    ∧ (startM (NewEngine id) lines).1.trace
        = [EngineState.none, EngineState.starting, EngineState.stopped]
    ∧ handshakeTimeoutNs = 5 * 1000000000 := by
  have hloop := initUCILoop_no_uciok
    (sendCommandM (setStateM (NewEngine id) EngineState.starting) "uci") lines h
  unfold startM initUCIM
  rcases hP : initUCILoop
      (sendCommandM (setStateM (NewEngine id) EngineState.starting) "uci") lines with ⟨e2, b⟩
  rw [hP] at hloop
  obtain ⟨hb, hstate, htrace, hwire⟩ := hloop
  simp only at hb
  subst hb
  have hstate2 : e2.state = EngineState.starting := by
    simpa [sendCommandM, setStateM, NewEngine] using hstate
  have htrace2 : e2.trace = [EngineState.none, EngineState.starting] := by
    simpa [sendCommandM, setStateM, NewEngine] using htrace
  simp [NewEngine, hP, stopM, hstate2, htrace2, sendCommandM, setStateM, handshakeTimeoutNs]

/-- Witness for C2 at a handshake that emits only `readyok`. -/
theorem handshake_timeout_states_witness :
    ParsedLine.uciok ∉ ([ParsedLine.readyok] : List ParsedLine)
    ∧ ((startM (NewEngine "w") [ParsedLine.readyok]).2 = Option.some UciError.timeoutErr
      ∧ (startM (NewEngine "w") [ParsedLine.readyok]).1.state = EngineState.stopped
      ∧ (startM (NewEngine "w") [ParsedLine.readyok]).1.trace
          = [EngineState.none, EngineState.starting, EngineState.stopped]
      ∧ handshakeTimeoutNs = 5 * 1000000000) :=
  ⟨by decide, handshake_timeout_states "w" [ParsedLine.readyok] (by decide)⟩

/-- Counterexample to C2 as stated: on handshake timeout the fresh
session ends in Stopped, not Error, and its transition history is
None → Starting → Stopped. -/
theorem handshake_timeout_cx :
    (startM (NewEngine "stockfish") []).1.state = EngineState.stopped
    ∧ (startM (NewEngine "stockfish") []).1.state ≠ EngineState.error
    ∧ (startM (NewEngine "stockfish") []).1.trace
        = [EngineState.none, EngineState.starting, EngineState.stopped]
    ∧ (startM (NewEngine "stockfish") []).2 = Option.some UciError.timeoutErr := by
  decide

/-- C3 as amended: a bestmove record received while Thinking or Pondering
drives the state to Ready, but it is not delivered on the analysis
channel — `handleLine` leaves the channel (and the wire) untouched. -/
theorem bestmove_sets_ready_only (e : SessionM) (bm : BestMove)
    (h : e.state = EngineState.thinking ∨ e.state = EngineState.pondering) :
    (handleLineM e (ParsedLine.bestmove bm)).state = EngineState.ready
    ∧ (handleLineM e (ParsedLine.bestmove bm)).infoCh = e.infoCh
    ∧ (handleLineM e (ParsedLine.bestmove bm)).wire = e.wire := by
  simp [handleLineM, setStateM]

/-- Witness for C3 at a thinking session. -/
theorem bestmove_sets_ready_only_witness :
    (({ NewEngine "w" with state := EngineState.thinking } : SessionM).state
        = EngineState.thinking
      ∨ ({ NewEngine "w" with state := EngineState.thinking } : SessionM).state
        = EngineState.pondering)
    ∧ ((handleLineM { NewEngine "w" with state := EngineState.thinking }
          (ParsedLine.bestmove { move := "e2e4" })).state = EngineState.ready
      ∧ (handleLineM { NewEngine "w" with state := EngineState.thinking }
          (ParsedLine.bestmove { move := "e2e4" })).infoCh
          = ({ NewEngine "w" with state := EngineState.thinking } : SessionM).infoCh
      ∧ (handleLineM { NewEngine "w" with state := EngineState.thinking }
          (ParsedLine.bestmove { move := "e2e4" })).wire
          = ({ NewEngine "w" with state := EngineState.thinking } : SessionM).wire) :=
  ⟨by decide,
    bestmove_sets_ready_only { NewEngine "w" with state := EngineState.thinking }
      { move := "e2e4" } (by decide)⟩

/-- Counterexample to C3 as stated: after a bestmove arrives in the
Thinking state, the analysis channel holds no record at all — no terminal
marker was delivered for the coordinator to observe. -/
theorem bestmove_not_on_channel_cx :
    (handleLineM { NewEngine "w" with state := EngineState.thinking }
        (ParsedLine.bestmove { move := "e2e4" })).infoCh = []
    ∧ (handleLineM { NewEngine "w" with state := EngineState.thinking }
        (ParsedLine.bestmove { move := "e2e4" })).state = EngineState.ready := by
  decide

/-- C6 as amended: calling `go` from Ready with the ponder parameter set
transitions the session to Thinking — the implementation never uses the
separate Pondering tag; the wire behavior is the same as a plain `go`
(the built command is sent unchanged). -/
theorem go_ponder_thinking (e : SessionM) (p : GoParams)
    (h : e.state = EngineState.ready) (hp : p.ponder = true) :
    (goM e p).1.state = EngineState.thinking
    ∧ (goM e p).1.wire = e.wire ++ [BuildGoCommand p]
    ∧ (goM e p).2 = Option.none := by
  simp [goM, h, sendCommandM, setStateM]

/-- Witness for C6 at a ready session and ponder parameters. -/
theorem go_ponder_thinking_witness :
    (({ NewEngine "w" with state := EngineState.ready } : SessionM).state = EngineState.ready
      ∧ ({ ponder := true } : GoParams).ponder = true)
    ∧ ((goM { NewEngine "w" with state := EngineState.ready } { ponder := true }).1.state
        = EngineState.thinking
      ∧ (goM { NewEngine "w" with state := EngineState.ready } { ponder := true }).1.wire
        = ({ NewEngine "w" with state := EngineState.ready } : SessionM).wire
          ++ [BuildGoCommand { ponder := true }]
      ∧ (goM { NewEngine "w" with state := EngineState.ready } { ponder := true }).2
        = Option.none) :=
  ⟨⟨by decide, by decide⟩,
    go_ponder_thinking { NewEngine "w" with state := EngineState.ready } { ponder := true }
      (by decide) (by decide)⟩

/-- Counterexample to C6 as stated: `go` with ponder set from Ready lands
in Thinking, not Pondering. -/
theorem go_ponder_cx :
    (goM { NewEngine "w" with state := EngineState.ready } { ponder := true }).1.state
      = EngineState.thinking
    ∧ (goM { NewEngine "w" with state := EngineState.ready } { ponder := true }).1.state
      ≠ EngineState.pondering := by
  decide

/-- C7 as amended: `SetOption` succeeds exactly when the state is Ready
or Thinking (Pondering is rejected — see the counterexample); on success
it sends the serialized `setoption` command, updates the current value of
an existing descriptor in place (other names untouched), and for a name
with no descriptor it still transmits the command but creates no entry. -/
theorem setOption_spec (e : SessionM) (n v : String) :
    ((setOptionM e n v).2 = Option.none
      ↔ (e.state = EngineState.ready ∨ e.state = EngineState.thinking))
    ∧ ((e.state = EngineState.ready ∨ e.state = EngineState.thinking) →
        (setOptionM e n v).1.wire = e.wire ++ [BuildSetOptionCommand n v]
        ∧ (List.lookup n e.options = Option.none →
            (setOptionM e n v).1.options = e.options)
        ∧ (∀ o, List.lookup n e.options = Option.some o →
            List.lookup n (setOptionM e n v).1.options = Option.some { o with value := v })
        ∧ (∀ k, k ≠ n → List.lookup k (setOptionM e n v).1.options = List.lookup k e.options)) := by
  by_cases hst : e.state = EngineState.ready ∨ e.state = EngineState.thinking
  · have hC : ¬(e.state ≠ EngineState.ready ∧ e.state ≠ EngineState.thinking) := by tauto
    unfold setOptionM
    rw [if_neg hC]
    cases hlk : List.lookup n e.options with
    | none => simp [sendCommandM, hst, hlk]
    | some o =>
      refine ⟨by simp [hst], fun _ => ⟨by simp [sendCommandM], ?_, ?_, ?_⟩⟩
      · intro hnone
        simp at hnone
      · intro o2 ho2
        obtain rfl : o = o2 := Option.some.inj ho2
        simpa [sendCommandM] using lookup_mapInsert_self e.options n { o with value := v }
      · intro k hk
        simpa [sendCommandM] using
          lookup_mapInsert_ne e.options k n { o with value := v } hk
  · have hC : e.state ≠ EngineState.ready ∧ e.state ≠ EngineState.thinking := by tauto
    unfold setOptionM
    rw [if_pos hC]
    simp [hst]

/-- A ready session holding one discovered `Hash` descriptor, for the C7
witness. -/
def sampleReadySession : SessionM :=
  { NewEngine "w" with
      state := EngineState.ready,
      options := [("Hash", { name := "Hash", type := "spin", defaultVal := "16", value := "16" })] }

/-- Witness for C7 at `sampleReadySession`. -/
theorem setOption_spec_witness :
    ((setOptionM sampleReadySession "Hash" "128").2 = Option.none
      ↔ (sampleReadySession.state = EngineState.ready
        ∨ sampleReadySession.state = EngineState.thinking))
    ∧ ((sampleReadySession.state = EngineState.ready
        ∨ sampleReadySession.state = EngineState.thinking) →
        (setOptionM sampleReadySession "Hash" "128").1.wire
          = sampleReadySession.wire ++ [BuildSetOptionCommand "Hash" "128"]
        ∧ (List.lookup "Hash" sampleReadySession.options = Option.none →
            (setOptionM sampleReadySession "Hash" "128").1.options
              = sampleReadySession.options)
        ∧ (∀ o, List.lookup "Hash" sampleReadySession.options = Option.some o →
            List.lookup "Hash" (setOptionM sampleReadySession "Hash" "128").1.options
              = Option.some { o with value := "128" })
        ∧ (∀ k, k ≠ "Hash" →
            List.lookup k (setOptionM sampleReadySession "Hash" "128").1.options
              = List.lookup k sampleReadySession.options)) :=
  setOption_spec sampleReadySession "Hash" "128"

/-- Counterexample to C7 as stated: from the Pondering state `SetOption`
is rejected with the not-running error and changes nothing. -/
theorem setOption_pondering_cx :
    (setOptionM { NewEngine "w" with state := EngineState.pondering } "Hash" "128").2
      = Option.some UciError.notRunning
    ∧ (setOptionM { NewEngine "w" with state := EngineState.pondering } "Hash" "128").2
      ≠ Option.none
    ∧ (setOptionM { NewEngine "w" with state := EngineState.pondering } "Hash" "128").1
      = { NewEngine "w" with state := EngineState.pondering } := by
  decide

/-- C10 as amended: Stopped and Error are not absorbing for `start`:
calling `start` on a session in either terminal state relaunches it (the
handshake succeeding, it reaches Ready), so restart does not require a
fresh Session; the remaining operations leave a terminal-state session
unchanged, and `start` from any live state fails with the
already-running error. -/
theorem start_from_terminal (e e2 : SessionM) (p : GoParams) (n v fen : String)
    (moves : List String) (hs : List ParsedLine)
    (h : e.state = EngineState.stopped ∨ e.state = EngineState.error)
    (h2 : e2.state = EngineState.starting ∨ e2.state = EngineState.ready
        ∨ e2.state = EngineState.thinking ∨ e2.state = EngineState.pondering) :
    (startM e [ParsedLine.uciok]).2 = Option.none
    ∧ (startM e [ParsedLine.uciok]).1.state = EngineState.ready
    ∧ (goM e p).1 = e
    ∧ (setOptionM e n v).1 = e
    ∧ (setPositionM e fen moves).1 = e
    ∧ (stopSearchM e).1 = e
    ∧ (startM e2 hs).1 = e2
    ∧ (startM e2 hs).2 = Option.some UciError.alreadyRunning := by
  rcases h with h | h <;> rcases h2 with h2 | h2 | h2 | h2 <;>
    simp [startM, initUCIM, initUCILoop, stopM, goM, setOptionM, setPositionM,
      stopSearchM, sendCommandM, setStateM, h, h2]

/-- Witness for C10 at a stopped and a ready session. -/
theorem start_from_terminal_witness :
    ((({ NewEngine "w" with state := EngineState.stopped } : SessionM).state
          = EngineState.stopped
        ∨ ({ NewEngine "w" with state := EngineState.stopped } : SessionM).state
          = EngineState.error)
      ∧ (({ NewEngine "r" with state := EngineState.ready } : SessionM).state
          = EngineState.starting
        ∨ ({ NewEngine "r" with state := EngineState.ready } : SessionM).state
          = EngineState.ready
        ∨ ({ NewEngine "r" with state := EngineState.ready } : SessionM).state
          = EngineState.thinking
        ∨ ({ NewEngine "r" with state := EngineState.ready } : SessionM).state
          = EngineState.pondering))
    ∧ ((startM { NewEngine "w" with state := EngineState.stopped } [ParsedLine.uciok]).2
        = Option.none
      ∧ (startM { NewEngine "w" with state := EngineState.stopped } [ParsedLine.uciok]).1.state
        = EngineState.ready
      ∧ (goM { NewEngine "w" with state := EngineState.stopped } {}).1
        = { NewEngine "w" with state := EngineState.stopped }
      ∧ (setOptionM { NewEngine "w" with state := EngineState.stopped } "Hash" "1").1
        = { NewEngine "w" with state := EngineState.stopped }
      ∧ (setPositionM { NewEngine "w" with state := EngineState.stopped } "" []).1
        = { NewEngine "w" with state := EngineState.stopped }
      ∧ (stopSearchM { NewEngine "w" with state := EngineState.stopped }).1
        = { NewEngine "w" with state := EngineState.stopped }
      ∧ (startM { NewEngine "r" with state := EngineState.ready } []).1
        = { NewEngine "r" with state := EngineState.ready }
      ∧ (startM { NewEngine "r" with state := EngineState.ready } []).2
        = Option.some UciError.alreadyRunning) :=
  ⟨⟨by decide, by decide⟩,
    start_from_terminal { NewEngine "w" with state := EngineState.stopped }
      { NewEngine "r" with state := EngineState.ready } {} "Hash" "1" "" [] []
      (by decide) (by decide)⟩

/-- Counterexample to C10 as stated: `start` on a Stopped session is
accepted and moves the session out of the terminal state (to Ready on
handshake success). -/
theorem terminal_not_absorbing_cx :
    (startM { NewEngine "w" with state := EngineState.stopped } [ParsedLine.uciok]).1.state
      = EngineState.ready
    ∧ EngineState.ready ≠ EngineState.stopped
    ∧ EngineState.ready ≠ EngineState.error
    ∧ (startM { NewEngine "w" with state := EngineState.stopped } [ParsedLine.uciok]).2
      = Option.none := by
  decide

end Rungine
